import Mathlib

/-!
Verification development for the openinsider SEC Form 4 monitor
(src/monitor.py).  The Python source is shallowly embedded below:
pure functions become Lean functions, the state dictionary becomes the
MonitorState structure, network and clock effects become explicit
oracle inputs, and Python exceptions become Except values.  Numeric
values are modelled with Rat (the Python code only multiplies, adds
and compares parsed decimal literals, which binary floats represent
questions never probed by the claims at the precision used here).
-/

set_option maxRecDepth 8000

/-! ## XML document model (ElementTree trees)

monitor.py hands raw XML text to xml.etree.ElementTree.fromstring and
then only uses root.find / root.findall with paths of the shapes
".//tag" and ".//tagA/tagB".  We embed the parsed tree directly: a
node has a tag, optional text, and child elements, and the two path
shapes are embedded as first-match searches over the preorder list of
proper descendants, matching ElementTree evaluation order. -/

inductive Xml where
  | node (tag : String) (text : Option String) (children : List Xml)

def Xml.tag : Xml → String
  | Xml.node t _ _ => t

def Xml.text : Xml → Option String
  | Xml.node _ tx _ => tx

def Xml.children : Xml → List Xml
  | Xml.node _ _ cs => cs

mutual

def Xml.descendants : Xml → List Xml
  | Xml.node _ _ cs => Xml.descList cs

def Xml.descList : List Xml → List Xml
  | [] => []
  | c :: cs => c :: Xml.descendants c ++ Xml.descList cs

end

/-- All proper descendants with the given tag, in document order:
models root.findall for a ".//tag" path. -/
def Xml.findAll (root : Xml) (tag : String) : List Xml :=
  root.descendants.filter (fun e => e.tag == tag)

/-- First proper descendant with the given tag: models
root.find for a ".//tag" path. -/
def Xml.findDesc1 (root : Xml) (tag : String) : Option Xml :=
  (Xml.findAll root tag).head?

/-- First b child of an a descendant, scanning a elements in document
order: models root.find for a ".//a/b" path. -/
def Xml.findDesc2 (root : Xml) (a b : String) : Option Xml :=
  ((root.descendants.filter (fun e => e.tag == a)).flatMap
    (fun e => e.children.filter (fun c => c.tag == b))).head?

/-! ## Python string primitives

The embedding reimplements the handful of Python string operations the
source uses (strip, upper, split on a one character separator,
startswith) by structural recursion on the character list of the
string, mirroring the Python semantics directly. -/

/-- Python str.strip() with no argument: drop whitespace from both
ends. -/
def pyStrip (s : String) : String :=
  String.mk (((s.data.dropWhile Char.isWhitespace).reverse.dropWhile
    Char.isWhitespace).reverse)

/-- Python str.upper() on the ASCII data in play. -/
def pyUpper (s : String) : String :=
  String.mk (s.data.map Char.toUpper)

/-- Python str.split(sep) for a one character separator, on character
lists: "a|b|" splits into "a", "b", "" and "" splits into "". -/
def splitChars (sep : Char) : List Char → List (List Char)
  | [] => [[]]
  | c :: cs =>
    let r := splitChars sep cs
    if c = sep then [] :: r
    else
      match r with
      | [] => [[c]]
      | h :: t => (c :: h) :: t

/-- Python str.split(sep) for a one character separator. -/
def pySplit (sep : Char) (s : String) : List String :=
  (splitChars sep s.data).map String.mk

/-- Python str.startswith(pre). -/
def strStarts (s pre : String) : Bool :=
  pre.data.isPrefixOf s.data

/-- Models the helper t in parse_form4_xml (monitor.py lines 256-258):
el.text.strip() if el is not None and el.text else "".  A missing
element, missing text, or empty text yields the empty string. -/
def elText (o : Option Xml) : String :=
  match o with
  | none => ""
  | some e =>
    match e.text with
    | none => ""
    | some s => if s = "" then "" else pyStrip s

/-! ## Python numeric conversion

Models the builtin float() on the plain decimal literals that occur in
EDGAR data (optional sign, digits, optional fractional digits).  Forms
outside that fragment (exponents, inf, nan, underscores) do not occur
in the documents the claims exercise. -/

def digitsVal? (cs : List Char) : Option Nat :=
  if cs ≠ [] ∧ cs.all Char.isDigit then
    some (cs.foldl (fun a c => a * 10 + (c.toNat - 48)) 0)
  else none

/-- Syntactic part of float(): recognize an optional sign, integer
digits and optional fractional digits, returning the sign, the digit
value with the decimal point removed, and the number of fractional
digits. -/
def pyDecLit? (cs : List Char) : Option (Bool × Nat × Nat) :=
  let neg := cs.head? = some '-'
  let body := if cs.head? = some '-' ∨ cs.head? = some '+' then cs.drop 1 else cs
  match splitChars '.' body with
  | [ip] => (digitsVal? ip).map (fun n => (neg, n, 0))
  | [ip, fp] =>
    if ip = [] ∧ fp = [] then none
    else
      match (if ip = [] then some 0 else digitsVal? ip),
            (if fp = [] then some 0 else digitsVal? fp) with
      | some n, some f => some (neg, n * 10 ^ fp.length + f, fp.length)
      | _, _ => none
  | _ => none

/-- The rational value of a recognized decimal literal. -/
def ratLit (neg : Bool) (n k : Nat) : Rat :=
  (if neg then -1 else 1) * ((n : Rat) / ((10 ^ k : Nat) : Rat))

def pyFloat? (s : String) : Option Rat :=
  (pyDecLit? (pyStrip s).data).map (fun p => ratLit p.1 p.2.1 p.2.2)

/-- Models float(x or 0) applied to the result of t (monitor.py lines
270-271): the empty string is falsy, so float(0) gives 0.0; a nonempty
string is passed to float(), which raises ValueError when it is not a
numeric literal. -/
def pyFloatField (s : String) : Except String Rat :=
  if s = "" then Except.ok 0
  else
    match pyFloat? s with
    | some q => Except.ok q
    | none => Except.error ("ValueError: could not convert string to float: " ++ s)

/-! ## Form 4 transaction parser (monitor.py lines 253-285) -/

/-- One element of the list returned by parse_form4_xml, mirroring the
dict built at monitor.py lines 274-283.  Note that the function
returns a bare list of these rows; no enclosing object with ticker or
total_value_usd fields is ever built. -/
structure Form4Row where
  trade_date : String
  ticker : String
  insider_name : String
  title : String
  trade_type : String
  price : Rat
  qty : Rat
  value : Rat
deriving DecidableEq, Repr

/-- The body of the loop at monitor.py lines 266-283.  The source
looks every field up with root.find (through the helper t closed over
root), not tx.find: the loop variable tx is never used, so all lookups
start from the document root. -/
def form4Row (root : Xml) (ticker insider title : String) : Except String Form4Row :=
  let trade_date := elText (Xml.findDesc2 root "transactionDate" "value")
  let code := elText (Xml.findDesc2 root "transactionCoding" "transactionCode")
  match pyFloatField (elText (Xml.findDesc2 root "transactionShares" "value")) with
  | Except.error e => Except.error e
  | Except.ok qty =>
    match pyFloatField (elText (Xml.findDesc2 root "transactionPricePerShare" "value")) with
    | Except.error e => Except.error e
    | Except.ok price =>
      Except.ok
        { trade_date := trade_date, ticker := ticker, insider_name := insider,
          title := title, trade_type := code, price := price, qty := qty,
          value := qty * price }

/-- parse_form4_xml (monitor.py lines 253-285), over an already parsed
tree (ET.fromstring failures are handled by the caller as per-entry
errors).  Returns the list named rows in the source; a ValueError from
a numeric field escapes the whole call. -/
def parse_form4_xml (root : Xml) : Except String (List Form4Row) :=
  let ticker := elText (Xml.findDesc1 root "issuerTradingSymbol")
  let insider := elText (Xml.findDesc1 root "reportingOwnerName")
  let title := elText (Xml.findDesc1 root "officerTitle")
  (Xml.findAll root "nonDerivativeTransaction").mapM
    (fun _tx => form4Row root ticker insider title)

/-! ## Alert evaluator (monitor.py lines 289-305)

alert_condition receives the alert section of the config and a dict
it reads with .get; the two dict shapes are embedded as structures
whose Option fields model keys that may be missing or null. -/

structure TxDict where
  code : Option String
deriving DecidableEq, Repr

structure FilingDict where
  ticker : Option String
  transactions : List TxDict
  total_value_usd : Rat
deriving DecidableEq, Repr

structure AlertCfg where
  enabled : Bool
  tickers_whitelist : List String
  transaction_code : Option String
  min_total_value_usd : Rat
deriving DecidableEq, Repr

/-- Models the whitelist comprehension at monitor.py line 295:
entries that strip to the empty string are dropped, the rest are
uppercased and stripped. -/
def normWhitelist (l : List String) : List String :=
  (l.filter (fun t => pyStrip t ≠ "")).map (fun t => pyStrip (pyUpper t))

/-- Models monitor.py line 299: a missing or falsy (empty)
transaction_code config value defaults to "P", then upper and strip. -/
def neededCode (c : Option String) : String :=
  pyStrip (pyUpper (match c with
    | none => "P"
    | some s => if s = "" then "P" else s))

/-- Models the generator at monitor.py line 300. -/
def hasMatchingCode (a : AlertCfg) (fd : FilingDict) : Bool :=
  fd.transactions.any
    (fun tx => pyStrip (pyUpper (tx.code.getD "")) == neededCode a.transaction_code)

/-- alert_condition (monitor.py lines 289-305). -/
def alert_condition (a : AlertCfg) (fd : FilingDict) : Bool :=
  if a.enabled = false then false
  else
    let ticker := pyStrip (pyUpper (fd.ticker.getD ""))
    let whitelist := normWhitelist a.tickers_whitelist
    if whitelist ≠ [] ∧ ticker ∉ whitelist then false
    else if hasMatchingCode a fd = false then false
    else decide (a.min_total_value_usd ≤ fd.total_value_usd)

/-! ## Persistent state (state.json) -/

/-- The state dict persisted to state.json, after the setdefault at
monitor.py line 418.  bootstrap_completed_at and bootstrap_error model
keys that may be absent. -/
structure MonitorState where
  seen_live_ids : List String
  history_seen_filenames : List String
  bootstrap_done : Bool
  bootstrap_completed_at : Option String
  bootstrap_error : Option String
deriving DecidableEq, Repr

/-! ## Live poller (monitor.py lines 308-391) -/

/-- One element of the list returned by parse_atom_entries
(monitor.py lines 220-237): entries with an empty id are dropped
there, so ids here are the nonempty strings used as dedup keys. -/
structure AtomEntry where
  id : String
  title : String
  updated : String
  link : String
deriving DecidableEq, Repr

/-- The record dict built at monitor.py lines 351-361.  In the source
this construction always raises before completing (see processEntry),
so values of this type are never actually produced by the live path. -/
structure LiveRecord where
  source : String
  atom_id : String
  updated : String
  title : String
  filing_index_url : String
  form4_xml_url : String
  ticker : String
  total_value_usd : Rat
  transactions : List Form4Row
deriving DecidableEq, Repr

/-- External collaborators of run_live, as oracles: the fetched and
parsed Atom feed (fetch_text plus parse_atom_entries), per URL fetch
results after transport retries, the regex based attachment scrape
find_filing_xml_url, ET.fromstring, and SMTP delivery. -/
structure LiveEnv where
  feed : Except String (List AtomEntry)
  fetchIndexHtml : String → Except String String
  findXmlUrl : String → Option String
  fetchXmlText : String → Except String String
  parseXml : String → Except String Xml
  email : Except String Unit

def attrErrMsg : String := "AttributeError: list object has no attribute get"

/-- The body of the try block at monitor.py lines 339-386 for one
entry.  After a successful parse, line 358 evaluates
filing_data.get("ticker", "") while building the record dict, but
parse_form4_xml returned a list, so Python raises AttributeError
before the record, the log append, alert_condition or send_email are
reached; the Bool in the result would be the emailed flag. -/
def processEntry (env : LiveEnv) (e : AtomEntry) : Except String (Option (LiveRecord × Bool)) :=
  match env.fetchIndexHtml e.link with
  | Except.error err => Except.error err
  | Except.ok html =>
    match env.findXmlUrl html with
    | none => Except.ok none
    | some xmlUrl =>
      match env.fetchXmlText xmlUrl with
      | Except.error err => Except.error err
      | Except.ok xmlText =>
        match env.parseXml xmlText with
        | Except.error err => Except.error err
        | Except.ok tree =>
          match parse_form4_xml tree with
          | Except.error err => Except.error err
          | Except.ok _rows => Except.error attrErrMsg

structure LoopOut where
  records : List LiveRecord
  errors : List (String × String)
  processed : Nat
  emailed : Nat
deriving DecidableEq, Repr

/-- The entry loop at monitor.py lines 330-389.  The check
processed >= max_proc before each entry followed by processed += 1 is
embedded as a fuel counter; an entry with an empty link is skipped
after the increment (line 336), and any error from the try block is
caught and recorded, the loop going on with the rest (lines 388-389). -/
def liveLoop (env : LiveEnv) : Nat → List AtomEntry → LoopOut
  | _, [] => ⟨[], [], 0, 0⟩
  | 0, _ :: _ => ⟨[], [], 0, 0⟩
  | fuel + 1, e :: rest =>
    if e.link = "" then
      let r := liveLoop env fuel rest
      ⟨r.records, r.errors, r.processed + 1, r.emailed⟩
    else
      match processEntry env e with
      | Except.error msg =>
        let r := liveLoop env fuel rest
        ⟨r.records, (e.id, msg) :: r.errors, r.processed + 1, r.emailed⟩
      | Except.ok none =>
        let r := liveLoop env fuel rest
        ⟨r.records, r.errors, r.processed + 1, r.emailed⟩
      | Except.ok (some (rec, emailedFlag)) =>
        let r := liveLoop env fuel rest
        ⟨rec :: r.records, r.errors, r.processed + 1,
         r.emailed + (if emailedFlag then 1 else 0)⟩

/-- Helper for dedupKeepOrder: drop elements already in the seen
accumulator, keep the rest in order. -/
def dedupAux (seen : List String) : List String → List String
  | [] => []
  | x :: xs =>
    if seen.contains x then dedupAux seen xs
    else x :: dedupAux (seen ++ [x]) xs

/-- Models dict.fromkeys at monitor.py line 324: deduplicate keeping
the first occurrence of each id, order preserved. -/
def dedupKeepOrder (l : List String) : List String :=
  dedupAux [] l

/-- The comprehension at monitor.py line 319: entries whose id is not
in the stored seen set. -/
def newEntriesOf (entries : List AtomEntry) (st : MonitorState) : List AtomEntry :=
  entries.filter (fun e => !(st.seen_live_ids.contains e.id))

instance {ε α : Type} [DecidableEq ε] [DecidableEq α] : DecidableEq (Except ε α) := fun a b =>
  match a, b with
  | Except.ok x, Except.ok y =>
    if h : x = y then Decidable.isTrue (by rw [h])
    else Decidable.isFalse (by intro hc; cases hc; exact h rfl)
  | Except.error x, Except.error y =>
    if h : x = y then Decidable.isTrue (by rw [h])
    else Decidable.isFalse (by intro hc; cases hc; exact h rfl)
  | Except.ok _, Except.error _ => Decidable.isFalse (by intro hc; cases hc)
  | Except.error _, Except.ok _ => Decidable.isFalse (by intro hc; cases hc)

structure LiveResult where
  out : Except String Unit
  state : MonitorState
  appended : List LiveRecord
  errors : List (String × String)
  processed : Nat
  emailed : Nat
deriving DecidableEq, Repr

/-- run_live (monitor.py lines 308-391).  A feed fetch or parse
failure escapes the function (out is the propagated error and the
state dict is untouched).  Otherwise the new entries are computed
against the old seen set, the seen list is replaced by the deduped
current feed ids truncated to 500 (lines 322-325) before any entry is
processed, and then the entry loop runs. -/
def run_live (env : LiveEnv) (maxProc : Nat) (st : MonitorState) : LiveResult :=
  match env.feed with
  | Except.error err => ⟨Except.error err, st, [], [], 0, 0⟩
  | Except.ok entries =>
    let newEntries := newEntriesOf entries st
    let dedupIds := dedupKeepOrder (entries.map AtomEntry.id)
    let st' := { st with seen_live_ids := dedupIds.take 500 }
    let r := liveLoop env maxProc newEntries
    ⟨Except.ok (), st', r.records, r.errors, r.processed, r.emailed⟩

/-! ## Transport retry wrapper (monitor.py lines 50-61)

fetch_text tries requests.get up to retries times; the first success
returns its text, and when every attempt fails it raises RuntimeError
carrying the last transport error.  The per attempt transport outcomes
are supplied by the oracle as a list whose length is the retry count. -/

def fetch_text (attempts : List (Except String String)) (last : String := "") :
    Except String String :=
  match attempts with
  | [] => Except.error ("RuntimeError: Impossibile scaricare: " ++ last)
  | Except.ok t :: _ => Except.ok t
  | Except.error e :: rest => fetch_text rest e

/-! ## Master index parser (monitor.py lines 101-133) -/

structure IdxRow where
  cik : String
  company_name : String
  form_type : String
  date_filed : String
  filename : String
deriving DecidableEq, Repr

def masterHeader : String := "CIK|Company Name|Form Type|Date Filed|Filename"

/-- One line of the body loop at monitor.py lines 117-132: split on
the pipe, keep only lines with exactly 5 fields, strip every field
(a line without any pipe yields a single field and is dropped, like
the source continue at line 118). -/
def parseIdxLine (line : String) : Option IdxRow :=
  match pySplit '|' line with
  | [a, b, c, d, e] =>
    some ⟨pyStrip a, pyStrip b, pyStrip c, pyStrip d, pyStrip e⟩
  | _ => none

/-- parse_master_idx (monitor.py lines 101-133): scan for the first
header line, return no rows when it is absent, else parse every later
line.  Python splitlines is embedded as splitting on the newline,
the only line separator in EDGAR index files. -/
def parse_master_idx (text : String) : List IdxRow :=
  let lines := pySplit '\n' text
  match lines.findIdx? (fun l => strStarts (pyStrip l) masterHeader) with
  | none => []
  | some i => (lines.drop (i + 1)).filterMap parseIdxLine

/-! ## Bootstrap loader (monitor.py lines 136-214) -/

/-- A calendar date, for the date_filed cutoff comparison. -/
structure DateD where
  y : Nat
  m : Nat
  d : Nat
deriving DecidableEq, Repr

def dateLt (a b : DateD) : Bool :=
  decide (a.y < b.y ∨ (a.y = b.y ∧ (a.m < b.m ∨ (a.m = b.m ∧ a.d < b.d))))

/-- Models datetime.strptime(s, "%Y-%m-%d").date() (monitor.py line
180) on the zero padded dates used by EDGAR indexes; any other string
gives none, which the source turns into a continue. -/
def parseDate? (s : String) : Option DateD :=
  match pySplit '-' s with
  | [ys, ms, ds] =>
    if ys.data.length = 4 ∧ ms.data.length = 2 ∧ ds.data.length = 2 then
      match digitsVal? ys.data, digitsVal? ms.data, digitsVal? ds.data with
      | some y, some m, some d =>
        if 1 ≤ m ∧ m ≤ 12 ∧ 1 ≤ d ∧ d ≤ 31 then some ⟨y, m, d⟩ else none
      | _, _, _ => none
    else none
  | _ => none

/-- quarter_for_date (monitor.py lines 92-93), on the month. -/
def quarter_for_date (month : Nat) : Nat :=
  (month - 1) / 3 + 1

/-- full_index_master_url (monitor.py lines 96-98). -/
def full_index_master_url (year qtr : Nat) : String :=
  "https://www.sec.gov/Archives/edgar/full-index/" ++ toString year ++
    "/QTR" ++ toString qtr ++ "/master.idx"

/-- The quarter enumeration at monitor.py lines 150-160: the current
quarter and the previous one, rolling over the year boundary. -/
def quartersOf (y m : Nat) : List (Nat × Nat) :=
  let q := quarter_for_date m
  if q = 1 then [(y, q), (y - 1, 4)] else [(y, q), (y, q - 1)]

/-- The record dict appended at monitor.py lines 192-202. -/
structure HistRecord where
  source : String
  date_filed : String
  company_name : String
  cik : String
  form_type : String
  filename : String
  filing_url : String
deriving DecidableEq, Repr

def mkHistRecord (r : IdxRow) : HistRecord :=
  ⟨"bootstrap", r.date_filed, r.company_name, r.cik, r.form_type, r.filename,
   "https://www.sec.gov/Archives/" ++ r.filename⟩

/-- The inner row loop at monitor.py lines 173-206: filter to form
type 4, parse the filed date (continue on failure), drop rows before
the cutoff or already seen, admit the rest, and break out of the row
loop as soon as the seen set has reached max_rows.  seen is carried as
a duplicate free list standing for the Python set (only membership and
size are relied on; set iteration order is arbitrary). -/
def admitRows (cutoff : DateD) (maxRows : Nat) :
    List IdxRow → List String → List HistRecord → List String × List HistRecord
  | [], seen, acc => (seen, acc)
  | r :: rest, seen, acc =>
    if r.form_type ≠ "4" then admitRows cutoff maxRows rest seen acc
    else
      match parseDate? r.date_filed with
      | none => admitRows cutoff maxRows rest seen acc
      | some dfiled =>
        if dateLt dfiled cutoff then admitRows cutoff maxRows rest seen acc
        else if seen.contains r.filename then admitRows cutoff maxRows rest seen acc
        else
          let seen' := seen ++ [r.filename]
          let acc' := acc ++ [mkHistRecord r]
          if maxRows ≤ seen'.length then (seen', acc')
          else admitRows cutoff maxRows rest seen' acc'

/-- External inputs of bootstrap_history_once: per URL transport
attempt outcomes for fetch_text, and the clock derived values — cutoff
models (now - history_days).date() from line 145, nowY and nowM model
the datetime.now call at line 150 that drives the quarter list. -/
structure BootEnv where
  fetch : String → List (Except String String)
  cutoff : DateD
  nowY : Nat
  nowM : Nat

/-- The quarter loop at monitor.py lines 165-209.  Each iteration
fetches one full index (an exhausted fetch raises, aborting the whole
loop: there is no try around the body), parses it and admits its rows.
The first component of the result is the list of URLs for which
fetch_text was invoked. -/
def bootLoop (fetch : String → Except String String) (cutoff : DateD) (maxRows : Nat) :
    List (Nat × Nat) → List String → List HistRecord →
    List String × Except String (List String × List HistRecord)
  | [], seen, acc => ([], Except.ok (seen, acc))
  | (y, q) :: rest, seen, acc =>
    let url := full_index_master_url y q
    match fetch url with
    | Except.error e => ([url], Except.error e)
    | Except.ok text =>
      let p := admitRows cutoff maxRows (parse_master_idx text) seen acc
      let r := bootLoop fetch cutoff maxRows rest p.1 p.2
      (url :: r.1, r.2)

structure BootResult where
  out : Except String Unit
  appended : List HistRecord
  state : MonitorState
  fetched : List String
deriving Repr

/-- bootstrap_history_once (monitor.py lines 136-214).  The append to
history.jsonl (line 211) and the write of history_seen_filenames into
the state dict (line 213) happen only after the quarter loop has
finished, so when the loop raises, nothing is appended and the state
is unchanged; appended is the list handed to append_jsonl.  The
initial seen set comes from set(state["history_seen_filenames"]).
list(seen)[-max_rows:] is embedded by pySliceLast below, keeping the
Python semantics of a -0 slice bound. -/
def pySliceLast (l : List String) (k : Nat) : List String :=
  if k = 0 then l else l.drop (l.length - k)

def bootstrap_history_once (benv : BootEnv) (maxRows : Nat) (st : MonitorState) :
    BootResult :=
  let seen0 := dedupKeepOrder st.history_seen_filenames
  let fetch := fun url => fetch_text (benv.fetch url)
  let r := bootLoop fetch benv.cutoff maxRows (quartersOf benv.nowY benv.nowM) seen0 []
  match r.2 with
  | Except.error e => ⟨Except.error e, [], st, r.1⟩
  | Except.ok (seen, newRows) =>
    ⟨Except.ok (), newRows,
     { st with history_seen_filenames := pySliceLast seen maxRows }, r.1⟩

/-! ## Orchestration (monitor.py lines 397-449, from line 430)

The config check and the optional debug test email precede this part
and abort the run before any state is touched when they fail; the
claims address the orchestration from the bootstrap gate on. -/

/-- The bootstrap gate at monitor.py lines 431-444: run the loader
only when bootstrap_done is false; in both the success and the
exception branch set bootstrap_done true and stamp
bootstrap_completed_at, recording the error text in the exception
branch.  Also returns the URLs the loader fetched and the records it
appended (both empty when the gate was closed). -/
def bootstrapPhase (benv : BootEnv) (maxRows : Nat) (nowISO : String)
    (st : MonitorState) : MonitorState × List String × List HistRecord :=
  if st.bootstrap_done then (st, [], [])
  else
    let br := bootstrap_history_once benv maxRows st
    match br.out with
    | Except.ok _ =>
      ({ br.state with
           bootstrap_done := true,
           bootstrap_completed_at := some nowISO }, br.fetched, br.appended)
    | Except.error e =>
      ({ br.state with
           bootstrap_done := true,
           bootstrap_completed_at := some nowISO,
           bootstrap_error := some e }, br.fetched, br.appended)

structure MainResult where
  out : Except String Unit
  finalState : Option MonitorState
  bootFetched : List String
  bootAppended : List HistRecord
  live : LiveResult

/-- main from the bootstrap gate on (monitor.py lines 430-448):
bootstrap phase, then run_live unconditionally, then save_json — which
is reached only when run_live did not raise, so finalState is the
persisted state, none when the run aborted. -/
def mainRun (benv : BootEnv) (lenv : LiveEnv) (maxRows maxProc : Nat)
    (nowISO : String) (st0 : MonitorState) : MainResult :=
  let p := bootstrapPhase benv maxRows nowISO st0
  let lr := run_live lenv maxProc p.1
  match lr.out with
  | Except.error e => ⟨Except.error e, none, p.2.1, p.2.2, lr⟩
  | Except.ok _ => ⟨Except.ok (), some lr.state, p.2.1, p.2.2, lr⟩

/-! ## Shared lemmas -/

lemma pyFloatField_empty : pyFloatField "" = Except.ok 0 := rfl

lemma pyFloatField_of_some (s : String) (hne : ¬ s = "") (p : Bool × Nat × Nat)
    (h : pyDecLit? (pyStrip s).data = some p) :
    pyFloatField s = Except.ok (ratLit p.1 p.2.1 p.2.2) := by
  simp [pyFloatField, hne, pyFloat?, h]

lemma contains_true_iff (l : List String) (a : String) :
    l.contains a = true ↔ a ∈ l := by
  simp [List.contains, List.elem_iff]

lemma mem_dedupAux (a : String) :
    ∀ (l seen : List String), a ∈ dedupAux seen l ↔ a ∈ l ∧ a ∉ seen := by
  intro l
  induction l with
  | nil =>
    intro seen
    simp [dedupAux]
  | cons x xs ih =>
    intro seen
    by_cases hx : seen.contains x = true
    · have hxs : x ∈ seen := (contains_true_iff _ _).1 hx
      rw [dedupAux, if_pos hx, ih]
      constructor
      · rintro ⟨h1, h2⟩
        exact ⟨List.mem_cons_of_mem x h1, h2⟩
      · rintro ⟨h1, h2⟩
        rcases List.mem_cons.mp h1 with h | h
        · exact absurd (by rw [h]; exact hxs) h2
        · exact ⟨h, h2⟩
    · have hxs : x ∉ seen := fun hc => hx ((contains_true_iff _ _).2 hc)
      rw [dedupAux, if_neg hx, List.mem_cons, ih]
      constructor
      · rintro (h1 | ⟨h2, h3⟩)
        · subst h1
          exact ⟨List.mem_cons_self a xs, hxs⟩
        · rw [List.mem_append] at h3
          push_neg at h3
          exact ⟨List.mem_cons_of_mem x h2, h3.1⟩
      · rintro ⟨h1, h2⟩
        rcases List.mem_cons.mp h1 with h | h
        · exact Or.inl h
        · by_cases hax : a = x
          · exact Or.inl hax
          · refine Or.inr ⟨h, ?_⟩
            rw [List.mem_append]
            push_neg
            exact ⟨h2, by simp [hax]⟩

lemma mem_dedupKeepOrder (a : String) (l : List String) :
    a ∈ dedupKeepOrder l ↔ a ∈ l := by
  simp [dedupKeepOrder, mem_dedupAux]

lemma dedupAux_eq_self :
    ∀ (l seen : List String), l.Nodup → (∀ a ∈ l, a ∉ seen) → dedupAux seen l = l := by
  intro l
  induction l with
  | nil =>
    intro seen _ _
    rfl
  | cons x xs ih =>
    intro seen hnd hno
    have hx : seen.contains x ≠ true := by
      intro hc
      exact hno x (List.mem_cons_self x xs) ((contains_true_iff _ _).1 hc)
    simp only [dedupAux, hx, Bool.not_eq_true] at *
    rw [if_neg (by simp [hx])]
    congr 1
    apply ih
    · exact (List.nodup_cons.mp hnd).2
    · intro a ha
      simp only [List.mem_append, List.mem_singleton]
      push_neg
      refine ⟨hno a (List.mem_cons_of_mem x ha), ?_⟩
      intro hax
      subst hax
      exact absurd ha (List.nodup_cons.mp hnd).1

lemma dedupKeepOrder_of_nodup (l : List String) (h : l.Nodup) :
    dedupKeepOrder l = l :=
  dedupAux_eq_self l [] h (by simp)

lemma liveLoop_processed (env : LiveEnv) :
    ∀ (es : List AtomEntry) (m : Nat),
      (liveLoop env m es).processed = min m es.length := by
  intro es
  induction es with
  | nil =>
    intro m
    cases m <;> simp [liveLoop]
  | cons e rest ih =>
    intro m
    cases m with
    | zero => simp [liveLoop]
    | succ fuel =>
      by_cases hl : e.link = ""
      · simp [liveLoop, hl, ih fuel, Nat.succ_min_succ]
      · cases hpe : processEntry env e with
        | error msg => simp [liveLoop, hl, hpe, ih fuel, Nat.succ_min_succ]
        | ok o =>
          cases o with
          | none => simp [liveLoop, hl, hpe, ih fuel, Nat.succ_min_succ]
          | some p =>
            cases p with
            | mk rec em => simp [liveLoop, hl, hpe, ih fuel, Nat.succ_min_succ]

lemma liveLoop_errors_mem (env : LiveEnv) (e : AtomEntry) (msg : String)
    (hlink : ¬ e.link = "") (herr : processEntry env e = Except.error msg) :
    ∀ (es : List AtomEntry) (m : Nat), e ∈ es.take m →
      (e.id, msg) ∈ (liveLoop env m es).errors := by
  intro es
  induction es with
  | nil =>
    intro m h
    simp at h
  | cons x rest ih =>
    intro m hmem
    cases m with
    | zero => simp at hmem
    | succ fuel =>
      rw [List.take_succ_cons] at hmem
      rcases List.mem_cons.mp hmem with heq | htail
      · subst heq
        simp [liveLoop, hlink, herr]
      · have hrec := ih fuel htail
        by_cases hl : x.link = ""
        · simpa [liveLoop, hl] using hrec
        · cases hpe : processEntry env x with
          | error m2 =>
            simp only [liveLoop, hl, if_neg, hpe]
            exact List.mem_cons_of_mem _ hrec
          | ok o =>
            cases o with
            | none => simpa [liveLoop, hl, hpe] using hrec
            | some p =>
              cases p with
              | mk rec em => simpa [liveLoop, hl, hpe] using hrec

lemma pySliceLast_length_le (l : List String) (k : Nat) (h : 1 ≤ k) :
    (pySliceLast l k).length ≤ k := by
  rw [pySliceLast, if_neg (by omega)]
  rw [List.length_drop]
  omega

lemma mapM_const_ok {α β : Type} (b : β) :
    ∀ (l : List α),
      (l.mapM (fun _ => (Except.ok b : Except String β))) =
        Except.ok (l.map (fun _ => b)) := by
  intro l
  induction l with
  | nil => rfl
  | cons x xs ih =>
    rw [List.mapM_cons, ih]
    rfl

lemma run_live_of_feed (env : LiveEnv) (maxProc : Nat) (st : MonitorState)
    (entries : List AtomEntry) (hfeed : env.feed = Except.ok entries) :
    run_live env maxProc st =
      ⟨Except.ok (),
       { st with seen_live_ids := (dedupKeepOrder (entries.map AtomEntry.id)).take 500 },
       (liveLoop env maxProc (newEntriesOf entries st)).records,
       (liveLoop env maxProc (newEntriesOf entries st)).errors,
       (liveLoop env maxProc (newEntriesOf entries st)).processed,
       (liveLoop env maxProc (newEntriesOf entries st)).emailed⟩ := by
  simp [run_live, hfeed]

lemma run_live_errors_eq (env : LiveEnv) (maxProc : Nat) (st : MonitorState)
    (entries : List AtomEntry) (hfeed : env.feed = Except.ok entries) :
    (run_live env maxProc st).errors
      = (liveLoop env maxProc (newEntriesOf entries st)).errors := by
  rw [run_live_of_feed env maxProc st entries hfeed]

lemma run_live_seen_eq (env : LiveEnv) (maxProc : Nat) (st : MonitorState)
    (entries : List AtomEntry) (hfeed : env.feed = Except.ok entries) :
    (run_live env maxProc st).state.seen_live_ids
      = (dedupKeepOrder (entries.map AtomEntry.id)).take 500 := by
  rw [run_live_of_feed env maxProc st entries hfeed]

lemma run_live_bootstrap_done (env : LiveEnv) (maxProc : Nat) (st : MonitorState) :
    (run_live env maxProc st).state.bootstrap_done = st.bootstrap_done := by
  cases hf : env.feed <;> simp [run_live, hf]

lemma bootstrap_unchanged_of_error (benv : BootEnv) (maxRows : Nat) (st : MonitorState)
    (h : (bootstrap_history_once benv maxRows st).out.isOk = false) :
    (bootstrap_history_once benv maxRows st).appended = []
    ∧ (bootstrap_history_once benv maxRows st).state = st := by
  rw [bootstrap_history_once] at *
  rcases h2 : (bootLoop (fun url => fetch_text (benv.fetch url)) benv.cutoff maxRows
      (quartersOf benv.nowY benv.nowM) (dedupKeepOrder st.history_seen_filenames) []).2
    with e | p
  · simp [h2]
  · rcases p with ⟨seen, rows⟩
    rw [h2] at h
    exact Bool.noConfusion h

/-! ## Concrete fixtures: Form 4 documents -/

def leafV (tag txt : String) : Xml := Xml.node tag (some txt) []

/-- A nonDerivativeTransaction element with the given share count and
price per share texts. -/
def sampleTx (shares price : String) : Xml :=
  Xml.node "nonDerivativeTransaction" none [
    Xml.node "transactionDate" none [leafV "value" "2026-10-01"],
    Xml.node "transactionCoding" none [leafV "transactionCode" "P"],
    Xml.node "transactionAmounts" none [
      Xml.node "transactionShares" none [leafV "value" shares],
      Xml.node "transactionPricePerShare" none [leafV "value" price]]]

/-- A well formed Form 4 document with one transaction of 100 shares
at 2.5 dollars. -/
def sampleDoc : Xml :=
  Xml.node "ownershipDocument" none [
    Xml.node "issuer" none [leafV "issuerTradingSymbol" "ACME"],
    Xml.node "reportingOwner" none [leafV "reportingOwnerName" "JANE DOE"],
    sampleTx "100" "2.5"]

def sampleRow : Form4Row :=
  { trade_date := "2026-10-01", ticker := "ACME", insider_name := "JANE DOE",
    title := "", trade_type := "P", price := 5/2, qty := 100, value := 250 }

lemma parse_sampleDoc : parse_form4_xml sampleDoc = Except.ok [sampleRow] := by
  have hsh : pyFloatField (elText (Xml.findDesc2 sampleDoc "transactionShares" "value"))
      = Except.ok 100 := by
    rw [show elText (Xml.findDesc2 sampleDoc "transactionShares" "value") = "100" from rfl]
    rw [pyFloatField_of_some "100" (by decide) (false, 100, 0) (by decide)]
    norm_num [ratLit]
  have hpr : pyFloatField (elText (Xml.findDesc2 sampleDoc "transactionPricePerShare" "value"))
      = Except.ok (5/2) := by
    rw [show elText (Xml.findDesc2 sampleDoc "transactionPricePerShare" "value") = "2.5" from rfl]
    rw [pyFloatField_of_some "2.5" (by decide) (false, 25, 1) (by decide)]
    norm_num [ratLit]
  have hform : form4Row sampleDoc "ACME" "JANE DOE" "" = Except.ok sampleRow := by
    rw [form4Row, hsh, hpr]
    norm_num [sampleRow]
    constructor <;> rfl
  rw [parse_form4_xml]
  rw [show Xml.findAll sampleDoc "nonDerivativeTransaction" = [sampleTx "100" "2.5"] from rfl]
  rw [show elText (Xml.findDesc1 sampleDoc "issuerTradingSymbol") = "ACME" from rfl]
  rw [show elText (Xml.findDesc1 sampleDoc "reportingOwnerName") = "JANE DOE" from rfl]
  rw [show elText (Xml.findDesc1 sampleDoc "officerTitle") = "" from rfl]
  simp [List.mapM_cons, hform]
  rfl

/-! ## Concrete fixtures: live poller environment for C1 -/

def entryA1 : AtomEntry :=
  ⟨"A1", "4 - ACME CORP", "2026-10-12T10:00:00Z", "https://www.sec.gov/idx"⟩

def emptySt : MonitorState := ⟨[], [], true, none, none⟩

def lenvC1 : LiveEnv :=
  { feed := Except.ok [entryA1],
    fetchIndexHtml := fun _ => Except.ok "index html",
    findXmlUrl := fun _ => some "https://www.sec.gov/Archives/f.xml",
    fetchXmlText := fun _ => Except.ok "form4 xml",
    parseXml := fun _ => Except.ok sampleDoc,
    email := Except.ok () }

/-- Claim C1: the claim states that parse_form4_xml returns a
FilingData value exposing the issuer ticker, the transaction list and
a totalValueUsd equal to the sum of shares times price, and that
run_live logs this value and passes it to the alert evaluator.  The
code instead returns a bare list of per transaction rows with no
ticker or total field, and run_live, which expects a dict, raises
AttributeError on that list for every successfully parsed filing: the
entry errors out, nothing is appended to the log and no alert is ever
evaluated.  This theorem evaluates the code at the failing input. -/
theorem c1_parse_form4_returns_bare_list_and_live_raises :
    parse_form4_xml sampleDoc = Except.ok [sampleRow]
    ∧ (run_live lenvC1 20 emptySt).errors = [("A1", attrErrMsg)]
    ∧ (run_live lenvC1 20 emptySt).appended = []
    ∧ (run_live lenvC1 20 emptySt).emailed = 0 := by
  have hpe : processEntry lenvC1 entryA1 = Except.error attrErrMsg := by
    simp [processEntry, lenvC1, parse_sampleDoc]
  have hloop : liveLoop lenvC1 20 (newEntriesOf [entryA1] emptySt)
      = ⟨[], [("A1", attrErrMsg)], 1, 0⟩ := by
    rw [show newEntriesOf [entryA1] emptySt = [entryA1] from rfl]
    rw [show (20 : Nat) = 19 + 1 from rfl, liveLoop]
    rw [if_neg (by decide : ¬ entryA1.link = "")]
    rw [hpe]
    rfl
  refine ⟨parse_sampleDoc, ?_, ?_, ?_⟩ <;>
    rw [run_live_of_feed lenvC1 20 emptySt [entryA1] rfl] <;>
    simp [hloop]

/-! ## Claim C7: per transaction extraction -/

/-- A well formed Form 4 document with two transactions whose share
counts and prices differ: 100 shares at 10 and 200 shares at 20. -/
def twoTxDoc : Xml :=
  Xml.node "ownershipDocument" none [
    Xml.node "issuer" none [leafV "issuerTradingSymbol" "ACME"],
    Xml.node "reportingOwner" none [leafV "reportingOwnerName" "JANE DOE"],
    sampleTx "100" "10",
    sampleTx "200" "20"]

def rowTwoTx : Form4Row :=
  { trade_date := "2026-10-01", ticker := "ACME", insider_name := "JANE DOE",
    title := "", trade_type := "P", price := 10, qty := 100, value := 1000 }

/-- Claim C7: the claim states that parse_form4_xml extracts each
transaction's date, code, share count and price from that
transaction's own element, so differing transactions yield differing
rows.  In the code the loop variable tx is unused and every lookup
goes through root.find, which returns the first matching element of
the whole document, so on this two transaction document (shares 100 at
price 10, then shares 200 at price 20) both returned rows carry the
first transaction's values and are identical. -/
theorem c7_rows_repeat_first_transaction :
    parse_form4_xml twoTxDoc = Except.ok [rowTwoTx, rowTwoTx]
    ∧ elText (Xml.findDesc2 (sampleTx "200" "20") "transactionShares" "value") = "200" := by
  refine ⟨?_, rfl⟩
  have hsh : pyFloatField (elText (Xml.findDesc2 twoTxDoc "transactionShares" "value"))
      = Except.ok 100 := by
    rw [show elText (Xml.findDesc2 twoTxDoc "transactionShares" "value") = "100" from rfl]
    rw [pyFloatField_of_some "100" (by decide) (false, 100, 0) (by decide)]
    norm_num [ratLit]
  have hpr : pyFloatField (elText (Xml.findDesc2 twoTxDoc "transactionPricePerShare" "value"))
      = Except.ok 10 := by
    rw [show elText (Xml.findDesc2 twoTxDoc "transactionPricePerShare" "value") = "10" from rfl]
    rw [pyFloatField_of_some "10" (by decide) (false, 10, 0) (by decide)]
    norm_num [ratLit]
  have hform : form4Row twoTxDoc "ACME" "JANE DOE" "" = Except.ok rowTwoTx := by
    rw [form4Row, hsh, hpr]
    norm_num [rowTwoTx]
    constructor <;> rfl
  rw [parse_form4_xml]
  rw [show Xml.findAll twoTxDoc "nonDerivativeTransaction"
        = [sampleTx "100" "10", sampleTx "200" "20"] from rfl]
  rw [show elText (Xml.findDesc1 twoTxDoc "issuerTradingSymbol") = "ACME" from rfl]
  rw [show elText (Xml.findDesc1 twoTxDoc "reportingOwnerName") = "JANE DOE" from rfl]
  rw [show elText (Xml.findDesc1 twoTxDoc "officerTitle") = "" from rfl]
  simp [List.mapM_cons, hform]
  rfl

/-! ## Claim C2: numeric resilience -/

/-- A Form 4 document whose only transaction has the non numeric share
count text abc. -/
def badSharesDoc : Xml :=
  Xml.node "ownershipDocument" none [
    Xml.node "issuer" none [leafV "issuerTradingSymbol" "ACME"],
    sampleTx "abc" "2.5"]

/-- Counterexample to claim C2: on a document whose transaction share
field holds the non numeric text abc, parse_form4_xml does not
substitute 0 — float("abc") raises ValueError, aborting the whole
parse of the filing, while the claim says the field degrades to 0 and
nothing is raised. -/
theorem c2_cex_nonnumeric_field_raises :
    parse_form4_xml badSharesDoc =
      Except.error "ValueError: could not convert string to float: abc" := by
  have hsh : pyFloatField (elText (Xml.findDesc2 badSharesDoc "transactionShares" "value"))
      = Except.error "ValueError: could not convert string to float: abc" := by
    rw [show elText (Xml.findDesc2 badSharesDoc "transactionShares" "value") = "abc" from rfl]
    rw [show pyFloatField "abc"
          = Except.error "ValueError: could not convert string to float: abc" from by
        simp [pyFloatField, pyFloat?]
        rw [show pyDecLit? (pyStrip "abc").data = none from by decide]
        rfl]
  have hform : ∀ t i ti, form4Row badSharesDoc t i ti =
      Except.error "ValueError: could not convert string to float: abc" := by
    intro t i ti
    rw [form4Row, hsh]
  rw [parse_form4_xml]
  rw [show Xml.findAll badSharesDoc "nonDerivativeTransaction"
        = [sampleTx "abc" "2.5"] from rfl]
  simp [List.mapM_cons, hform]
  rfl

/-- Claim C2 as amended: when a transaction share field or price field
is absent (or empty), the empty string from the helper t is falsy and
float(0) yields 0 for that field, so the transaction parses with the
field as 0 and value 0 and nothing is raised; only a present non
numeric field raises (see the counterexample).  The first conjunct
covers an absent or empty share count with a parsing price field (and,
at p = 0, both fields absent); the second covers a parsing share count
with an absent or empty price field. -/
theorem c2_amended_absent_field_gives_zero (doc : Xml) (p q : Rat) :
    (elText (Xml.findDesc2 doc "transactionShares" "value") = "" →
     pyFloatField (elText (Xml.findDesc2 doc "transactionPricePerShare" "value"))
       = Except.ok p →
     ∃ rows, parse_form4_xml doc = Except.ok rows
       ∧ ∀ r ∈ rows, r.qty = 0 ∧ r.value = 0)
    ∧ (pyFloatField (elText (Xml.findDesc2 doc "transactionShares" "value"))
         = Except.ok q →
       elText (Xml.findDesc2 doc "transactionPricePerShare" "value") = "" →
       ∃ rows, parse_form4_xml doc = Except.ok rows
         ∧ ∀ r ∈ rows, r.price = 0 ∧ r.value = 0) := by
  constructor
  · intro hsh hpr
    have hform : form4Row doc (elText (Xml.findDesc1 doc "issuerTradingSymbol"))
        (elText (Xml.findDesc1 doc "reportingOwnerName"))
        (elText (Xml.findDesc1 doc "officerTitle")) = Except.ok
          { trade_date := elText (Xml.findDesc2 doc "transactionDate" "value"),
            ticker := elText (Xml.findDesc1 doc "issuerTradingSymbol"),
            insider_name := elText (Xml.findDesc1 doc "reportingOwnerName"),
            title := elText (Xml.findDesc1 doc "officerTitle"),
            trade_type := elText (Xml.findDesc2 doc "transactionCoding" "transactionCode"),
            price := p, qty := 0, value := 0 * p } := by
      rw [form4Row, hsh, pyFloatField_empty, hpr]
    refine ⟨(Xml.findAll doc "nonDerivativeTransaction").map (fun _ =>
      { trade_date := elText (Xml.findDesc2 doc "transactionDate" "value"),
        ticker := elText (Xml.findDesc1 doc "issuerTradingSymbol"),
        insider_name := elText (Xml.findDesc1 doc "reportingOwnerName"),
        title := elText (Xml.findDesc1 doc "officerTitle"),
        trade_type := elText (Xml.findDesc2 doc "transactionCoding" "transactionCode"),
        price := p, qty := 0, value := 0 * p }), ?_, ?_⟩
    · simp only [parse_form4_xml, hform]
      exact mapM_const_ok _ _
    · intro r hr
      rcases List.mem_map.mp hr with ⟨_, _, rfl⟩
      exact ⟨rfl, by rw [show (0 : Rat) * p = 0 from zero_mul p]⟩
  · intro hsh hpr
    have hform : form4Row doc (elText (Xml.findDesc1 doc "issuerTradingSymbol"))
        (elText (Xml.findDesc1 doc "reportingOwnerName"))
        (elText (Xml.findDesc1 doc "officerTitle")) = Except.ok
          { trade_date := elText (Xml.findDesc2 doc "transactionDate" "value"),
            ticker := elText (Xml.findDesc1 doc "issuerTradingSymbol"),
            insider_name := elText (Xml.findDesc1 doc "reportingOwnerName"),
            title := elText (Xml.findDesc1 doc "officerTitle"),
            trade_type := elText (Xml.findDesc2 doc "transactionCoding" "transactionCode"),
            price := 0, qty := q, value := q * 0 } := by
      rw [form4Row, hsh, hpr, pyFloatField_empty]
    refine ⟨(Xml.findAll doc "nonDerivativeTransaction").map (fun _ =>
      { trade_date := elText (Xml.findDesc2 doc "transactionDate" "value"),
        ticker := elText (Xml.findDesc1 doc "issuerTradingSymbol"),
        insider_name := elText (Xml.findDesc1 doc "reportingOwnerName"),
        title := elText (Xml.findDesc1 doc "officerTitle"),
        trade_type := elText (Xml.findDesc2 doc "transactionCoding" "transactionCode"),
        price := 0, qty := q, value := q * 0 }), ?_, ?_⟩
    · simp only [parse_form4_xml, hform]
      exact mapM_const_ok _ _
    · intro r hr
      rcases List.mem_map.mp hr with ⟨_, _, rfl⟩
      exact ⟨rfl, by rw [show q * (0 : Rat) = 0 from mul_zero q]⟩

/-- A Form 4 document whose only transaction carries no share count
element at all, with price 5. -/
def absentSharesDoc : Xml :=
  Xml.node "ownershipDocument" none [
    Xml.node "issuer" none [leafV "issuerTradingSymbol" "ACME"],
    Xml.node "nonDerivativeTransaction" none [
      Xml.node "transactionDate" none [leafV "value" "2026-10-01"],
      Xml.node "transactionCoding" none [leafV "transactionCode" "P"],
      Xml.node "transactionAmounts" none [
        Xml.node "transactionPricePerShare" none [leafV "value" "5"]]]]

/-- A Form 4 document whose only transaction carries no price per
share element at all, with share count 7. -/
def absentPriceDoc : Xml :=
  Xml.node "ownershipDocument" none [
    Xml.node "issuer" none [leafV "issuerTradingSymbol" "ACME"],
    Xml.node "nonDerivativeTransaction" none [
      Xml.node "transactionDate" none [leafV "value" "2026-10-01"],
      Xml.node "transactionCoding" none [leafV "transactionCode" "P"],
      Xml.node "transactionAmounts" none [
        Xml.node "transactionShares" none [leafV "value" "7"]]]]

/-- Witness for the amended claim C2: a document with an absent share
count element (price present) and one with an absent price element
(share count present). -/
theorem c2_amended_witness :
    (∃ rows, parse_form4_xml absentSharesDoc = Except.ok rows
      ∧ ∀ r ∈ rows, r.qty = 0 ∧ r.value = 0)
    ∧ (∃ rows, parse_form4_xml absentPriceDoc = Except.ok rows
      ∧ ∀ r ∈ rows, r.price = 0 ∧ r.value = 0) := by
  constructor
  · apply (c2_amended_absent_field_gives_zero absentSharesDoc
      (ratLit false 5 0) 0).1 rfl
    rw [show elText (Xml.findDesc2 absentSharesDoc "transactionPricePerShare" "value")
          = "5" from rfl]
    exact pyFloatField_of_some "5" (by decide) (false, 5, 0) (by decide)
  · apply (c2_amended_absent_field_gives_zero absentPriceDoc
      0 (ratLit false 7 0)).2 ?_ rfl
    rw [show elText (Xml.findDesc2 absentPriceDoc "transactionShares" "value")
          = "7" from rfl]
    exact pyFloatField_of_some "7" (by decide) (false, 7, 0) (by decide)

/-! ## Claim C8: alert conjunction -/

/-- Claim C8: alert_condition is a pure conjunction of three filters.
Disabled alerting short circuits to false; with a nonempty normalized
whitelist a non member ticker gives false while an empty whitelist
imposes no ticker constraint; a filing with no transaction whose
normalized code equals the configured one (default P) gives false; and
for a filing passing the ticker and code filters the result is true
exactly when total_value_usd is at or above the configured minimum. -/
theorem c8_alert_condition_conjunction (a : AlertCfg) (fd : FilingDict) :
    (a.enabled = false → alert_condition a fd = false)
    ∧ (normWhitelist a.tickers_whitelist ≠ [] →
        pyStrip (pyUpper (fd.ticker.getD "")) ∉ normWhitelist a.tickers_whitelist →
        alert_condition a fd = false)
    ∧ (a.enabled = true → normWhitelist a.tickers_whitelist = [] →
        alert_condition a fd =
          (hasMatchingCode a fd && decide (a.min_total_value_usd ≤ fd.total_value_usd)))
    ∧ (hasMatchingCode a fd = false → alert_condition a fd = false)
    ∧ (a.enabled = true →
        (normWhitelist a.tickers_whitelist = [] ∨
          pyStrip (pyUpper (fd.ticker.getD "")) ∈ normWhitelist a.tickers_whitelist) →
        hasMatchingCode a fd = true →
        (alert_condition a fd = true ↔ a.min_total_value_usd ≤ fd.total_value_usd)) := by
  refine ⟨?_, ?_, ?_, ?_, ?_⟩
  · intro hdis
    simp [alert_condition, hdis]
  · intro hwne hnm
    rcases he : a.enabled with _ | _
    · simp [alert_condition, he]
    · simp [alert_condition, he, hwne, hnm]
  · intro he hwl
    simp only [alert_condition, he, Bool.true_eq_false, if_false, hwl]
    rw [if_neg (by simp)]
    rcases hc : hasMatchingCode a fd with _ | _
    · simp
    · simp
  · intro hc
    rcases he : a.enabled with _ | _
    · simp [alert_condition, he]
    · by_cases hw : normWhitelist a.tickers_whitelist ≠ []
          ∧ pyStrip (pyUpper (fd.ticker.getD "")) ∉ normWhitelist a.tickers_whitelist
      · simp [alert_condition, he, hw, hc]
      · simp [alert_condition, he, hw, hc]
  · intro he hpass hc
    have hw : ¬ (normWhitelist a.tickers_whitelist ≠ []
        ∧ pyStrip (pyUpper (fd.ticker.getD "")) ∉ normWhitelist a.tickers_whitelist) := by
      rcases hpass with h | h
      · intro hcon
        exact hcon.1 h
      · intro hcon
        exact hcon.2 h
    simp [alert_condition, he, hw, hc]

def fdSample : FilingDict := ⟨some "acme", [⟨some "p"⟩], 250⟩

def fdLow : FilingDict := ⟨some "acme", [⟨some "p"⟩], 5⟩

def aDisabled : AlertCfg := ⟨false, [], none, 0⟩

def aOtherTicker : AlertCfg := ⟨true, ["MSFT"], none, 0⟩

def aCodeS : AlertCfg := ⟨true, [], some "S", 0⟩

def aThresh : AlertCfg := ⟨true, [], none, 10⟩

/-- Witness for claim C8 at concrete configurations: disabled
alerting, a whitelist not containing the ticker, a required code no
transaction carries, a value below the threshold, and the same filing
above the threshold. -/
theorem c8_witness :
    alert_condition aDisabled fdSample = false
    ∧ alert_condition aOtherTicker fdSample = false
    ∧ alert_condition aCodeS fdSample = false
    ∧ alert_condition aThresh fdLow = false
    ∧ alert_condition aThresh fdSample = true := by
  refine ⟨?_, ?_, ?_, ?_, ?_⟩
  · exact (c8_alert_condition_conjunction aDisabled fdSample).1 rfl
  · exact (c8_alert_condition_conjunction aOtherTicker fdSample).2.1
      (by decide) (by decide)
  · exact (c8_alert_condition_conjunction aCodeS fdSample).2.2.2.1 (by decide)
  · have h := (c8_alert_condition_conjunction aThresh fdLow).2.2.2.2
      rfl (Or.inl rfl) (by decide)
    cases hb : alert_condition aThresh fdLow
    · rfl
    · have h2 := h.mp hb
      simp only [aThresh, fdLow] at h2
      norm_num at h2
  · have h := (c8_alert_condition_conjunction aThresh fdSample).2.2.2.2
      rfl (Or.inl rfl) (by decide)
    exact h.mpr (by norm_num [aThresh, fdSample])

/-! ## Claims C3 and C5: live dedup and per entry error handling -/

lemma contains_false_of_not_mem (l : List String) (a : String) (h : a ∉ l) :
    l.contains a = false := by
  cases hc : l.contains a
  · rfl
  · exact absurd ((contains_true_iff _ _).1 hc) h

/-- Claim C3 as amended: after a successful feed fetch the stored ids
are always replaced by the deduplicated current feed ids truncated to
500, whatever the per entry oracle did; and when the feed has at most
500 distinct ids, a second run over the same feed snapshot computes no
new entries and processes nothing.  (The truncation makes the second
part fail for feeds with more than 500 distinct ids, see the
counterexample.) -/
theorem c3_amended_ids_replaced_and_idempotent (env env2 : LiveEnv)
    (maxProc maxProc2 : Nat) (st : MonitorState) (entries : List AtomEntry)
    (hfeed : env.feed = Except.ok entries)
    (hfeed2 : env2.feed = Except.ok entries)
    (hlen : (dedupKeepOrder (entries.map AtomEntry.id)).length ≤ 500) :
    (run_live env maxProc st).state.seen_live_ids
      = (dedupKeepOrder (entries.map AtomEntry.id)).take 500
    ∧ newEntriesOf entries (run_live env maxProc st).state = []
    ∧ (run_live env2 maxProc2 ((run_live env maxProc st).state)).processed = 0 := by
  have hstate : (run_live env maxProc st).state.seen_live_ids
      = (dedupKeepOrder (entries.map AtomEntry.id)).take 500 := by
    rw [run_live_of_feed env maxProc st entries hfeed]
  have hnew : newEntriesOf entries (run_live env maxProc st).state = [] := by
    rw [newEntriesOf]
    apply List.filter_eq_nil_iff.mpr
    intro e he
    rw [hstate, List.take_of_length_le hlen]
    simp only [Bool.not_eq_true']
    rw [Bool.not_eq_false]
    apply (contains_true_iff _ _).2
    exact (mem_dedupKeepOrder _ _).2 (List.mem_map.mpr ⟨e, he, rfl⟩)
  refine ⟨hstate, hnew, ?_⟩
  rw [run_live_of_feed env2 maxProc2 _ entries hfeed2]
  rw [show (⟨Except.ok (), _, _,
        (liveLoop env2 maxProc2 (newEntriesOf entries (run_live env maxProc st).state)).errors,
        (liveLoop env2 maxProc2 (newEntriesOf entries (run_live env maxProc st).state)).processed,
        _⟩ : LiveResult).processed
      = (liveLoop env2 maxProc2 (newEntriesOf entries (run_live env maxProc st).state)).processed
      from rfl]
  rw [hnew]
  cases maxProc2 <;> rfl

/-- Feed ids for the over the cap counterexamples: 501 pairwise
distinct strings. -/
def idN (i : Nat) : String := String.mk (List.replicate i 'a')

def mkBigEntry (i : Nat) : AtomEntry := ⟨idN i, "", "", "LNK"⟩

/-- A live feed snapshot with 501 entries carrying distinct ids. -/
def bigFeed : List AtomEntry := (List.range 501).map mkBigEntry

def bigIds : List String := (List.range 501).map idN

def bigSeen : List String := (List.range 500).map idN

/-- An oracle whose per entry fetches all fail. -/
def lenvBig : LiveEnv :=
  { feed := Except.ok bigFeed,
    fetchIndexHtml := fun _ => Except.error "boom",
    findXmlUrl := fun _ => none,
    fetchXmlText := fun _ => Except.error "boom",
    parseXml := fun _ => Except.error "boom",
    email := Except.ok () }

lemma idN_length (i : Nat) : (idN i).length = i := by
  show (List.replicate i 'a').length = i
  simp

lemma idN_injective : Function.Injective idN := by
  intro i j h
  have h2 : (idN i).length = (idN j).length := congrArg String.length h
  rwa [idN_length, idN_length] at h2

lemma bigIds_nodup : bigIds.Nodup :=
  (List.nodup_range 501).map idN_injective

lemma bigFeed_map_id : bigFeed.map AtomEntry.id = bigIds := by
  rw [bigFeed, bigIds, List.map_map]
  rfl

lemma dedup_bigIds : dedupKeepOrder bigIds = bigIds :=
  dedupKeepOrder_of_nodup _ bigIds_nodup

lemma bigIds_take : bigIds.take 500 = bigSeen := by
  rw [bigIds, bigSeen, ← List.map_take, List.take_range]
  rfl

lemma idN500_not_in_bigSeen : idN 500 ∉ bigSeen := by
  rw [bigSeen]
  intro h
  rcases List.mem_map.mp h with ⟨i, hi, hime⟩
  have h2 := idN_injective hime
  rw [List.mem_range] at hi
  omega

/-- Counterexample to claim C3: with a feed snapshot of 501 distinct
ids, the stored list is truncated to the first 500 ids, so a second
run against the unchanged snapshot computes the 501st entry as new
again — the claimed consequence (zero new entries on the second run)
fails. -/
theorem c3_cex_feed_over_cap_not_idempotent :
    mkBigEntry 500 ∈ newEntriesOf bigFeed (run_live lenvBig 20 emptySt).state := by
  have hstate : (run_live lenvBig 20 emptySt).state.seen_live_ids = bigSeen := by
    rw [run_live_of_feed lenvBig 20 emptySt bigFeed rfl]
    show (dedupKeepOrder (bigFeed.map AtomEntry.id)).take 500 = bigSeen
    rw [bigFeed_map_id, dedup_bigIds, bigIds_take]
  rw [newEntriesOf]
  apply List.mem_filter.mpr
  constructor
  · rw [bigFeed]
    exact List.mem_map.mpr ⟨500, List.mem_range.mpr (by norm_num), rfl⟩
  · rw [hstate]
    rw [show (mkBigEntry 500).id = idN 500 from rfl]
    rw [contains_false_of_not_mem _ _ idN500_not_in_bigSeen]
    rfl

/-- Witness for the amended claim C3 at a three entry feed. -/
theorem c3_amended_witness :
    (run_live lenvC1 20 emptySt).state.seen_live_ids
      = (dedupKeepOrder ([entryA1].map AtomEntry.id)).take 500
    ∧ newEntriesOf [entryA1] (run_live lenvC1 20 emptySt).state = []
    ∧ (run_live lenvC1 20 ((run_live lenvC1 20 emptySt).state)).processed = 0 :=
  c3_amended_ids_replaced_and_idempotent lenvC1 lenvC1 20 20 emptySt [entryA1]
    rfl rfl (by decide)

/-- Claim C5 as amended: any error raised while processing a feed
entry inside the loop is caught there and recorded, the loop continues
(the number of processed entries depends only on the budget and the
number of new entries, not on failures), the run completes with ok,
and — provided the feed has at most 500 distinct ids, so that the
truncation at line 325 does not drop it — the failing entry stays
marked as seen.  (For a feed with more than 500 distinct ids a
processed entry past the cap is not marked seen, see the
counterexample.) -/
theorem c5_amended_per_entry_errors_caught (env : LiveEnv) (maxProc : Nat)
    (st : MonitorState) (entries : List AtomEntry) (e : AtomEntry) (msg : String)
    (hfeed : env.feed = Except.ok entries)
    (hlen : (dedupKeepOrder (entries.map AtomEntry.id)).length ≤ 500)
    (hmem : e ∈ (newEntriesOf entries st).take maxProc)
    (hlink : ¬ e.link = "")
    (herr : processEntry env e = Except.error msg) :
    (run_live env maxProc st).out = Except.ok ()
    ∧ (e.id, msg) ∈ (run_live env maxProc st).errors
    ∧ (run_live env maxProc st).processed
        = min maxProc (newEntriesOf entries st).length
    ∧ e.id ∈ (run_live env maxProc st).state.seen_live_ids := by
  rw [run_live_of_feed env maxProc st entries hfeed]
  refine ⟨rfl, ?_, ?_, ?_⟩
  · exact liveLoop_errors_mem env e msg hlink herr _ maxProc hmem
  · exact liveLoop_processed env _ maxProc
  · show e.id ∈ (dedupKeepOrder (entries.map AtomEntry.id)).take 500
    rw [List.take_of_length_le hlen]
    apply (mem_dedupKeepOrder _ _).2
    apply List.mem_map.mpr
    refine ⟨e, ?_, rfl⟩
    have h1 : e ∈ newEntriesOf entries st := List.mem_of_mem_take hmem
    exact List.mem_of_mem_filter h1

/-- The state of a run that has already seen the first 500 of the 501
distinct feed ids. -/
def stSeen500 : MonitorState := ⟨bigSeen, [], true, none, none⟩

lemma newEntries_bigFeed : newEntriesOf bigFeed stSeen500 = [mkBigEntry 500] := by
  rw [newEntriesOf, bigFeed]
  rw [show (501 : Nat) = 500 + 1 from rfl, List.range_succ, List.map_append,
    List.filter_append]
  have h1 : ((List.range 500).map mkBigEntry).filter
      (fun e => !(stSeen500.seen_live_ids.contains e.id)) = [] := by
    apply List.filter_eq_nil_iff.mpr
    intro e he
    rcases List.mem_map.mp he with ⟨i, hi, rfl⟩
    rw [show (mkBigEntry i).id = idN i from rfl]
    rw [show stSeen500.seen_live_ids = bigSeen from rfl]
    rw [(contains_true_iff bigSeen (idN i)).2
      (by rw [bigSeen]; exact List.mem_map.mpr ⟨i, hi, rfl⟩)]
    simp
  rw [h1]
  rw [show ((List.map mkBigEntry [500]).filter
      (fun e => !(stSeen500.seen_live_ids.contains e.id)))
      = [mkBigEntry 500] from by
    rw [show List.map mkBigEntry [500] = [mkBigEntry 500] from rfl]
    rw [List.filter_cons]
    rw [show (mkBigEntry 500).id = idN 500 from rfl]
    rw [show stSeen500.seen_live_ids = bigSeen from rfl]
    rw [contains_false_of_not_mem _ _ idN500_not_in_bigSeen]
    rfl]
  rfl

/-- Counterexample to claim C5: with 501 distinct feed ids and a prior
state holding the first 500, the 501st entry is processed and fails;
the failure is caught and logged, but the entry is not marked as seen,
because the replacement list was truncated to the first 500 ids before
the loop ran. -/
theorem c5_cex_failing_entry_beyond_cap_not_seen :
    (run_live lenvBig 20 stSeen500).errors = [(idN 500, "boom")]
    ∧ (run_live lenvBig 20 stSeen500).state.seen_live_ids.contains (idN 500)
        = false := by
  have hfeed : lenvBig.feed = Except.ok bigFeed := rfl
  constructor
  · rw [run_live_errors_eq lenvBig 20 stSeen500 bigFeed hfeed, newEntries_bigFeed]
    rfl
  · rw [run_live_seen_eq lenvBig 20 stSeen500 bigFeed hfeed, bigFeed_map_id,
      dedup_bigIds, bigIds_take]
    exact contains_false_of_not_mem _ _ idN500_not_in_bigSeen

/-- A one entry feed whose index page fetch always fails. -/
def entryB : AtomEntry := ⟨"B1", "t", "u", "LNK"⟩

def lenvFail : LiveEnv :=
  { feed := Except.ok [entryB],
    fetchIndexHtml := fun _ => Except.error "boom",
    findXmlUrl := fun _ => none,
    fetchXmlText := fun _ => Except.error "boom",
    parseXml := fun _ => Except.error "boom",
    email := Except.ok () }

/-- Witness for the amended claim C5 at a one entry feed whose entry
processing fails. -/
theorem c5_amended_witness :
    (run_live lenvFail 20 emptySt).out = Except.ok ()
    ∧ (entryB.id, "boom") ∈ (run_live lenvFail 20 emptySt).errors
    ∧ (run_live lenvFail 20 emptySt).processed
        = min 20 (newEntriesOf [entryB] emptySt).length
    ∧ entryB.id ∈ (run_live lenvFail 20 emptySt).state.seen_live_ids :=
  c5_amended_per_entry_errors_caught lenvFail 20 emptySt [entryB] entryB "boom"
    rfl (by decide) (by decide) (by decide) rfl

/-! ## Claims C6, C9, C10: bootstrap pass -/

lemma quartersOf_head (y m : Nat) :
    quartersOf y m = (y, quarter_for_date m) ::
      (if quarter_for_date m = 1 then [(y - 1, 4)]
       else [(y, quarter_for_date m - 1)]) := by
  rw [quartersOf]
  by_cases h1 : quarter_for_date m = 1 <;> simp [h1]

/-- Claim C6 as amended: when one period's index fetch fails after the
transport retries are exhausted, the RuntimeError from fetch_text
propagates out of bootstrap_history_once — the quarter loop has no try
around its body.  In particular when the first enumerated quarter
fails, the second quarter is never fetched, no records from any period
are appended, and the state is unchanged; main catches the exception,
records it in bootstrap_error and logs it there (not per period). -/
theorem c6_amended_first_period_failure_propagates (benv : BootEnv) (maxRows : Nat)
    (st : MonitorState) (msg : String)
    (h : fetch_text (benv.fetch (full_index_master_url benv.nowY
          (quarter_for_date benv.nowM))) = Except.error msg) :
    (bootstrap_history_once benv maxRows st).out = Except.error msg
    ∧ (bootstrap_history_once benv maxRows st).fetched
        = [full_index_master_url benv.nowY (quarter_for_date benv.nowM)]
    ∧ (bootstrap_history_once benv maxRows st).appended = []
    ∧ (bootstrap_history_once benv maxRows st).state = st := by
  simp [bootstrap_history_once, quartersOf_head, bootLoop, h]

def emptyStNotDone : MonitorState := ⟨[], [], false, none, none⟩

/-- A transport that fails every attempt for every URL. -/
def benvFailQ1 : BootEnv :=
  { fetch := fun _ => [Except.error "timeout"],
    cutoff := ⟨2026, 7, 14⟩, nowY := 2026, nowM := 10 }

/-- Witness for the amended claim C6: the first quarter (2026 QTR4)
fails, the pass aborts having fetched only that URL, with nothing
appended and the state unchanged. -/
theorem c6_amended_witness :
    (bootstrap_history_once benvFailQ1 50000 emptyStNotDone).out
      = Except.error "RuntimeError: Impossibile scaricare: timeout"
    ∧ (bootstrap_history_once benvFailQ1 50000 emptyStNotDone).fetched
        = [full_index_master_url 2026 4]
    ∧ (bootstrap_history_once benvFailQ1 50000 emptyStNotDone).appended = []
    ∧ (bootstrap_history_once benvFailQ1 50000 emptyStNotDone).state
        = emptyStNotDone :=
  c6_amended_first_period_failure_propagates benvFailQ1 50000 emptyStNotDone
    "RuntimeError: Impossibile scaricare: timeout" rfl

/-- A full index text for 2026 QTR4 with one admissible Form 4 row and
one row of another form type. -/
def idxTextQ4 : String :=
  "Description of the EDGAR full index\n\nCIK|Company Name|Form Type|Date Filed|Filename\n------\n123|Acme Corp|4|2026-09-15|edgar/data/123/f4.txt\n456|Other Corp|10-K|2026-09-16|edgar/data/456/k.txt\n"

/-- Oracle for the C6 counterexample: the current quarter succeeds
with an admissible record, the previous quarter exhausts its
retries. -/
def benvC6 : BootEnv :=
  { fetch := fun url =>
      if url = full_index_master_url 2026 4 then [Except.ok idxTextQ4]
      else [Except.error "timeout", Except.error "timeout", Except.error "timeout"],
    cutoff := ⟨2026, 7, 14⟩, nowY := 2026, nowM := 10 }

/-- Counterexample to claim C6: the first quarter was fetched and
parsed to an admissible Form 4 record, the second quarter's fetch
failed after retries — and instead of skipping that period and keeping
the first period's records, the whole pass aborts: nothing at all is
appended and the state is unchanged. -/
theorem c6_cex_period_failure_aborts_pass :
    parse_master_idx idxTextQ4 =
      [⟨"123", "Acme Corp", "4", "2026-09-15", "edgar/data/123/f4.txt"⟩,
       ⟨"456", "Other Corp", "10-K", "2026-09-16", "edgar/data/456/k.txt"⟩]
    ∧ (bootstrap_history_once benvC6 50000 emptyStNotDone).out
        = Except.error "RuntimeError: Impossibile scaricare: timeout"
    ∧ (bootstrap_history_once benvC6 50000 emptyStNotDone).fetched
        = [full_index_master_url 2026 4, full_index_master_url 2026 3]
    ∧ (bootstrap_history_once benvC6 50000 emptyStNotDone).appended = []
    ∧ (bootstrap_history_once benvC6 50000 emptyStNotDone).state
        = emptyStNotDone := by
  refine ⟨by decide, by decide, by decide, by decide, by decide⟩

/-- Claim C10: when bootstrap_history_once raises at any point, no
bootstrap records at all are appended and history_seen_filenames is
unchanged — including records already admitted from an earlier,
successfully fetched period of the same pass — because the append to
history.jsonl (line 211) and the state write (line 213) are reached
only after every period completed. -/
theorem c10_bootstrap_abort_is_atomic (benv : BootEnv) (maxRows : Nat)
    (st : MonitorState) (e : String)
    (h : (bootstrap_history_once benv maxRows st).out = Except.error e) :
    (bootstrap_history_once benv maxRows st).appended = []
    ∧ (bootstrap_history_once benv maxRows st).state = st := by
  apply bootstrap_unchanged_of_error
  rw [h]
  rfl

/-- Witness for claim C10 at the concrete pass whose first quarter
succeeded with an admissible record and whose second quarter failed:
nothing is appended and the state is untouched. -/
theorem c10_witness :
    (bootstrap_history_once benvC6 50000 emptyStNotDone).appended = []
    ∧ (bootstrap_history_once benvC6 50000 emptyStNotDone).state
        = emptyStNotDone :=
  c10_bootstrap_abort_is_atomic benvC6 50000 emptyStNotDone
    "RuntimeError: Impossibile scaricare: timeout" (by decide)

/-- Claim C9 as amended: provided maxHistoryRows is at least 1, a
completed bootstrap pass leaves at most maxHistoryRows persisted
filenames, however many candidates it admitted; an aborted pass leaves
the state unchanged (and a run whose bootstrap gate is closed never
touches the list).  With maxHistoryRows = 0 the Python slice
list(seen)[-0:] is the whole list and the cap is not enforced, see the
counterexample. -/
theorem c9_amended_cap_enforced_when_positive (benv : BootEnv) (maxRows : Nat)
    (st : MonitorState) (hpos : 1 ≤ maxRows) :
    ((bootstrap_history_once benv maxRows st).out = Except.ok () →
      (bootstrap_history_once benv maxRows st).state.history_seen_filenames.length
        ≤ maxRows)
    ∧ ((bootstrap_history_once benv maxRows st).out.isOk = false →
      (bootstrap_history_once benv maxRows st).state = st) := by
  constructor
  · intro hok
    rw [bootstrap_history_once] at hok ⊢
    rcases h2 : (bootLoop (fun url => fetch_text (benv.fetch url)) benv.cutoff maxRows
        (quartersOf benv.nowY benv.nowM) (dedupKeepOrder st.history_seen_filenames) []).2
      with e | p
    · rw [h2] at hok
      simp at hok
    · rcases p with ⟨seen, rows⟩
      exact pySliceLast_length_le seen maxRows hpos
  · intro hne
    exact (bootstrap_unchanged_of_error benv maxRows st hne).2

/-- Oracle for the C9 counterexample: the current quarter returns one
admissible Form 4 row, the previous quarter returns an index with no
header (zero rows). -/
def benvC9 : BootEnv :=
  { fetch := fun url =>
      if url = full_index_master_url 2026 4 then [Except.ok idxTextQ4]
      else [Except.ok ""],
    cutoff := ⟨2026, 7, 14⟩, nowY := 2026, nowM := 10 }

/-- Counterexample to claim C9: with max_history_rows = 0 and one
admitted candidate (more than the cap), the pass completes and the
persisted list has length 1, exceeding the cap — the Python slice
list(seen)[-0:] keeps everything. -/
theorem c9_cex_zero_cap_not_enforced :
    (bootstrap_history_once benvC9 0 emptyStNotDone).out = Except.ok ()
    ∧ (bootstrap_history_once benvC9 0 emptyStNotDone).state.history_seen_filenames.length
        = 1 := by
  refine ⟨by decide, by decide⟩

/-- Witness for the amended claim C9 at the same oracle with cap 1. -/
theorem c9_amended_witness :
    ((bootstrap_history_once benvC9 1 emptyStNotDone).out = Except.ok () →
      (bootstrap_history_once benvC9 1 emptyStNotDone).state.history_seen_filenames.length
        ≤ 1)
    ∧ ((bootstrap_history_once benvC9 1 emptyStNotDone).out.isOk = false →
      (bootstrap_history_once benvC9 1 emptyStNotDone).state = emptyStNotDone) :=
  c9_amended_cap_enforced_when_positive benvC9 1 emptyStNotDone (by norm_num)

/-! ## Claim C4: bootstrap gate monotonicity -/

/-- Claim C4: bootstrap_done is monotonic false to true.  After the
bootstrap phase of any run the flag is true; a run observing the flag
already true does not invoke the Bootstrap Loader at all (gate closed:
no fetches, no appends, state untouched), so the transition happens
exactly once, on the first run that observes false; when the loader
raises, the flag is still set and the error text is recorded in
bootstrap_error; no operation sets the flag back to false (run_live
leaves it unchanged and a persisted final state always carries true);
and the Live Poller runs on the post bootstrap state in either case. -/
theorem c4_bootstrap_done_monotonic (benv : BootEnv) (lenv : LiveEnv)
    (maxRows maxProc : Nat) (nowISO : String) (st0 : MonitorState) :
    (bootstrapPhase benv maxRows nowISO st0).1.bootstrap_done = true
    ∧ (st0.bootstrap_done = true →
        bootstrapPhase benv maxRows nowISO st0 = (st0, [], []))
    ∧ (st0.bootstrap_done = false →
        ∀ e, (bootstrap_history_once benv maxRows st0).out = Except.error e →
          (bootstrapPhase benv maxRows nowISO st0).1.bootstrap_error = some e)
    ∧ (mainRun benv lenv maxRows maxProc nowISO st0).live
        = run_live lenv maxProc (bootstrapPhase benv maxRows nowISO st0).1
    ∧ (∀ s, (mainRun benv lenv maxRows maxProc nowISO st0).finalState = some s →
        s.bootstrap_done = true) := by
  have hdone : (bootstrapPhase benv maxRows nowISO st0).1.bootstrap_done = true := by
    by_cases hd : st0.bootstrap_done
    · simp [bootstrapPhase, hd]
    · simp only [bootstrapPhase, hd, if_false, Bool.false_eq_true]
      rcases ho : (bootstrap_history_once benv maxRows st0).out with e | u
      · simp [ho]
      · simp [ho]
  have hlive : (mainRun benv lenv maxRows maxProc nowISO st0).live
      = run_live lenv maxProc (bootstrapPhase benv maxRows nowISO st0).1 := by
    simp only [mainRun]
    rcases ho : (run_live lenv maxProc (bootstrapPhase benv maxRows nowISO st0).1).out
      with e | u
    · simp [ho]
    · simp [ho]
  refine ⟨hdone, ?_, ?_, hlive, ?_⟩
  · intro hd
    simp [bootstrapPhase, hd]
  · intro hd e he
    simp only [bootstrapPhase, hd, if_false, Bool.false_eq_true, he]
  · intro s hs
    simp only [mainRun] at hs
    rcases ho : (run_live lenv maxProc (bootstrapPhase benv maxRows nowISO st0).1).out
      with e | u
    · rw [ho] at hs
      simp at hs
    · rw [ho] at hs
      simp only [Option.some_inj] at hs
      rw [← hs, run_live_bootstrap_done]
      exact hdone

/-- Witness for claim C4: a run whose state already has the flag set
leaves the bootstrap phase untouched; a run observing false whose
loader fails still records the error while run_live is invoked on the
post bootstrap state. -/
theorem c4_witness :
    bootstrapPhase benvFailQ1 5 "2026-10-12T00:00:00Z" emptySt = (emptySt, [], [])
    ∧ (bootstrapPhase benvFailQ1 5 "2026-10-12T00:00:00Z" emptyStNotDone).1.bootstrap_error
        = some "RuntimeError: Impossibile scaricare: timeout"
    ∧ (mainRun benvFailQ1 lenvFail 5 20 "2026-10-12T00:00:00Z" emptyStNotDone).live
        = run_live lenvFail 20
            (bootstrapPhase benvFailQ1 5 "2026-10-12T00:00:00Z" emptyStNotDone).1 := by
  refine ⟨?_, ?_, ?_⟩
  · exact (c4_bootstrap_done_monotonic benvFailQ1 lenvFail 5 20
      "2026-10-12T00:00:00Z" emptySt).2.1 rfl
  · exact (c4_bootstrap_done_monotonic benvFailQ1 lenvFail 5 20
      "2026-10-12T00:00:00Z" emptyStNotDone).2.2.1 rfl
      "RuntimeError: Impossibile scaricare: timeout" (by decide)
  · exact (c4_bootstrap_done_monotonic benvFailQ1 lenvFail 5 20
      "2026-10-12T00:00:00Z" emptyStNotDone).2.2.2.1
